import Mathlib

/-!
Shallow embedding of the liveness-detection core of the Banking-security
repository.  Two near-duplicate versions of the component exist in the
source: `src/app/components/FaceVerification.tsx` (the "Tsx" version) and
the unnamed file `src/unnamed/part_000` (the "P0" version).  Numeric
per-frame signals (EAR samples, positions, expression probabilities,
scores) are modelled over `ℚ`; the eye-aspect-ratio geometry, which uses a
square root, is modelled over `ℝ`.
-/

namespace BankSec

/-! ### Geometry (FaceVerification.tsx lines 129-141, part_000 lines 45-62)

`Point` models the landmark points `{x, y}` handed over by the detector. -/

structure Point where
  x : ℝ
  y : ℝ

/-- `euclideanDistance` (tsx 139-141, part_000 60-62):
`sqrt((pt2.x - pt1.x)^2 + (pt2.y - pt1.y)^2)`. -/
noncomputable def euclideanDistance (pt1 pt2 : Point) : ℝ :=
  Real.sqrt ((pt2.x - pt1.x) ^ 2 + (pt2.y - pt1.y) ^ 2)

/-- An eye landmark set: exactly 6 points, indices 0-5 of the source's
`eye` array. -/
structure EyeLandmarks where
  p0 : Point
  p1 : Point
  p2 : Point
  p3 : Point
  p4 : Point
  p5 : Point

/-- `getEyeAspectRatio` (part_000 45-58; identical to the inner `getEAR`
of tsx 130-135): `v1 = d(eye[1],eye[5])`, `v2 = d(eye[2],eye[4])`,
`h = d(eye[0],eye[3])`, result `h > 0 ? ((v1+v2)/(2*h))*1.5 : 0`. -/
noncomputable def getEyeAspectRatio (eye : EyeLandmarks) : ℝ :=
  let v1 := euclideanDistance eye.p1 eye.p5
  let v2 := euclideanDistance eye.p2 eye.p4
  let h := euclideanDistance eye.p0 eye.p3
  if 0 < h then ((v1 + v2) / (2 * h)) * (3 / 2) else 0

/-- `calculateEAR` (tsx 129-137): mean of the per-eye ratios. -/
noncomputable def calculateEAR (leftEye rightEye : EyeLandmarks) : ℝ :=
  (getEyeAspectRatio leftEye + getEyeAspectRatio rightEye) / 2

/-- Uniform scaling of a point by a factor `k`. -/
def scalePoint (k : ℝ) (p : Point) : Point :=
  ⟨k * p.x, k * p.y⟩

/-- Uniform scaling of all six landmark points by `k`. -/
def scaleEye (k : ℝ) (eye : EyeLandmarks) : EyeLandmarks :=
  ⟨scalePoint k eye.p0, scalePoint k eye.p1, scalePoint k eye.p2,
   scalePoint k eye.p3, scalePoint k eye.p4, scalePoint k eye.p5⟩

/-! ### EAR history and baseline (tsx 143-153, part_000 79-87) -/

/-- `updateEARHistory` (tsx 143-148; the same push appears inline at
part_000 79-83 and 279-282): append the sample, and if the length now
exceeds 10, `shift()` the oldest entry off the front. -/
def updateEARHistory (hist : List ℚ) (currentEAR : ℚ) : List ℚ :=
  let h := hist ++ [currentEAR]
  if 10 < h.length then h.tail else h

/-- `calculateBaselineEAR` (tsx 150-153; inline at part_000 85-87 and
284-286): sort a copy descending, `slice(0, 3)`, sum, divide by 3.
Note the divisor is the constant 3 even when fewer than 3 samples exist. -/
def calculateBaselineEAR (hist : List ℚ) : ℚ :=
  ((List.insertionSort (· ≥ ·) hist).take 3).sum / 3

/-- Modelled from the spec: `baseline()` described as "sort a copy of
history descending, take first 3 (or fewer if history shorter — if fewer
than 3 samples exist, average over whatever is present, and treat as 0 if
empty), return their mean".  Used only to compare against
`calculateBaselineEAR`. -/
def baselineSpecMean (hist : List ℚ) : ℚ :=
  let top := (List.insertionSort (· ≥ ·) hist).take 3
  if top.isEmpty then 0 else top.sum / top.length

/-! ### Blink detection (tsx 190-204, part_000 64-120) -/

/-- `detectBlink` of the Tsx version (tsx 190-204).  It does NOT push: the
frame loop already pushed the sample via `updateEARHistory` (tsx 110).  It
reads the shared history: if it holds at least 3 samples, compares the
second-to-last sample and the current EAR against
`calculateBaselineEAR() * 0.65` and increments on a falling edge. -/
def detectBlink (hist : List ℚ) (count : ℕ) (currentEAR : ℚ) : ℕ :=
  if 3 ≤ hist.length then
    let prev := hist.getD (hist.length - 2) 0
    let threshold := calculateBaselineEAR hist * (65 / 100)
    if threshold < prev ∧ currentEAR < threshold then count + 1 else count
  else count

/-- `observe`: the Tsx frame loop's push followed by its blink check
(tsx 110 then 170/190-204); this is also the spec's
`BlinkDetector.observe` (push, then falling-edge test on the shared
history).  Returns the updated history and count. -/
def observe (hist : List ℚ) (count : ℕ) (currentEAR : ℚ) : List ℚ × ℕ :=
  let h := updateEARHistory hist currentEAR
  (h, detectBlink h count currentEAR)

/-- `detectBlink` of the P0 version (part_000 64-120): unlike the Tsx
version it pushes the sample itself (part_000 80-83) before the
falling-edge test.  Returns the updated history and count. -/
def detectBlinkP0 (hist : List ℚ) (count : ℕ) (ear : ℚ) : List ℚ × ℕ :=
  let h := updateEARHistory hist ear
  let prev := h.getD (h.length - 2) 0
  let threshold := calculateBaselineEAR h * (65 / 100)
  (h, if 3 ≤ h.length then
        if threshold < prev ∧ ear < threshold then count + 1 else count
      else count)

/-! ### Movement (tsx 206-225, part_000 122-145; identical) -/

/-- The nose-position push (tsx 210-213): append, `shift()` when the
length exceeds 10. -/
def pushPosition (hist : List (ℚ × ℚ)) (p : ℚ × ℚ) : List (ℚ × ℚ) :=
  let h := hist ++ [p]
  if 10 < h.length then h.tail else h

/-- The loop of tsx 217-222: sum of `|Δx| + |Δy|` over consecutive
pairs. -/
def totalMovement : List (ℚ × ℚ) → ℚ
  | [] => 0
  | [_] => 0
  | p :: q :: rest => (|q.1 - p.1| + |q.2 - p.2|) + totalMovement (q :: rest)

/-- `detectMovement` (tsx 206-225, part_000 122-145): push the nose
position, return 0 if fewer than 2 positions are recorded, else the total
Manhattan movement divided by the history length.  Returns the updated
history and the movement value. -/
def detectMovement (hist : List (ℚ × ℚ)) (p : ℚ × ℚ) : List (ℚ × ℚ) × ℚ :=
  let h := pushPosition hist p
  (h, if h.length < 2 then 0 else totalMovement h / h.length)

/-! ### Liveness score and guidance messages (tsx 168-188, part_000 304-333) -/

/-- The score formula (tsx 174, part_000 314-319):
`min(blinkCount * 0.3 + movement * 2 + expressionChange * 0.3, 1)`. -/
def livenessScore (blinkCount : ℕ) (movement expressionChange : ℚ) : ℚ :=
  min ((blinkCount : ℚ) * (3 / 10) + movement * 2 + expressionChange * (3 / 10)) 1

/-- `Math.max(expressions.happy, expressions.surprised, expressions.neutral)`
(tsx 172, part_000 308-312). -/
def expressionChange (happy surprised neutral : ℚ) : ℚ :=
  max happy (max surprised neutral)

/-- The user-facing guidance messages, abstracting the message strings of
both versions; `needBlinks n` carries the interpolated blink count of
"Please blink naturally (n/2 blinks)". -/
inductive Msg where
  | starting
  | needBlinks (n : ℕ)
  | needMovement
  | verified
  | positionFace
  | noFace
  deriving DecidableEq, Repr

/-- Message selection (tsx 177-187, part_000 323-333): nested
first-match-wins conditionals on the score, blink count and movement. -/
def selectMessage (score : ℚ) (blinkCount : ℕ) (movement : ℚ) : Msg :=
  if 7 / 10 < score then
    if blinkCount < 2 then Msg.needBlinks blinkCount
    else if movement < 1 / 10 then Msg.needMovement
    else Msg.verified
  else Msg.positionFace

/-! ### The per-frame pipeline of each version -/

/-- Per-frame session state: the two bounded histories, the blink counter,
and the published score and message (tsx 10-15, part_000 11-16). -/
structure Session where
  earHist : List ℚ
  posHist : List (ℚ × ℚ)
  blinkCount : ℕ
  score : ℚ
  message : Msg
  deriving DecidableEq, Repr

/-- The session at start: empty histories, zero blinks and score. -/
def initSession : Session :=
  ⟨[], [], 0, 0, Msg.starting⟩

/-- The per-frame measurements the external detector supplies for a frame
with a face: the (already averaged) EAR sample, the nose reference point,
and the three expression probabilities.  The geometric EAR computation
itself is `calculateEAR` above. -/
structure Measurement where
  ear : ℚ
  nose : ℚ × ℚ
  happy : ℚ
  surprised : ℚ
  neutral : ℚ
  deriving DecidableEq, Repr

/-- One face-detected frame of the Tsx version (tsx 104-116 with
168-188): push the EAR once (tsx 110), run the blink check on the shared
post-push history, update movement, recompute score and message. -/
def processFrameTsx (s : Session) (m : Measurement) : Session :=
  let h := updateEARHistory s.earHist m.ear
  let count := detectBlink h s.blinkCount m.ear
  let pm := detectMovement s.posHist m.nose
  let e := expressionChange m.happy m.surprised m.neutral
  let score := livenessScore count pm.2 e
  ⟨h, pm.1, count, score, selectMessage score count pm.2⟩

/-- One face-detected frame of the P0 version (part_000 264-333): the
frame loop pushes the EAR (part_000 279-282), and `detectBlink` then
pushes the same value again (part_000 80-83) before its falling-edge
test. -/
def processFrameP0 (s : Session) (m : Measurement) : Session :=
  let h1 := updateEARHistory s.earHist m.ear
  let bc := detectBlinkP0 h1 s.blinkCount m.ear
  let pm := detectMovement s.posHist m.nose
  let e := expressionChange m.happy m.surprised m.neutral
  let score := livenessScore bc.2 pm.2 e
  ⟨bc.1, pm.1, bc.2, score, selectMessage score bc.2 pm.2⟩

/-- A full Tsx frame: `none` is the no-face branch (tsx 117-119), which
only publishes the no-face message. -/
def processFrameTsxOpt (s : Session) (d : Option Measurement) : Session :=
  match d with
  | none => { s with message := Msg.noFace }
  | some m => processFrameTsx s m

/-- A full P0 frame: `none` is the no-face branch (part_000 334-340),
which only publishes the no-face message. -/
def processFrameP0Opt (s : Session) (d : Option Measurement) : Session :=
  match d with
  | none => { s with message := Msg.noFace }
  | some m => processFrameP0 s m

/-! ### Theorems -/

/-- C1 counterexample: on the one-sample history `[3]`, the code returns
`3 / 3 = 1`, not the average `3` of the samples present, so `baseline()`
does not return "the average over whatever samples are present" when
fewer than 3 samples exist. -/
theorem calculateBaselineEAR_single_ne_mean :
    calculateBaselineEAR [3] ≠ baselineSpecMean [3] := by
  norm_num [calculateBaselineEAR, baselineSpecMean, List.insertionSort,
    List.orderedInsert]

/-- C1 (amended): `baseline()` sorts the history descending into a
permutation of it, takes the first 3, and returns their sum divided by
the constant 3.  This equals the mean of the top-3 largest values when at
least 3 samples exist, and 0 when the history is empty; with 1 or 2
samples it is their sum divided by 3, not their average. -/
theorem calculateBaselineEAR_top3 (hist : List ℚ) :
    (List.insertionSort (· ≥ ·) hist).Perm hist ∧
    List.Sorted (· ≥ ·) (List.insertionSort (· ≥ ·) hist) ∧
    calculateBaselineEAR hist =
      ((List.insertionSort (· ≥ ·) hist).take 3).sum / 3 ∧
    (hist = [] → calculateBaselineEAR hist = 0) ∧
    (3 ≤ hist.length → calculateBaselineEAR hist = baselineSpecMean hist) := by
  refine ⟨List.perm_insertionSort _ hist, List.sorted_insertionSort _ hist, rfl, ?_, ?_⟩
  · rintro rfl
    simp [calculateBaselineEAR, List.insertionSort]
  · intro hlen
    have hslen : (List.insertionSort (· ≥ ·) hist).length = hist.length :=
      (List.perm_insertionSort (· ≥ ·) hist).length_eq
    have htake : ((List.insertionSort (· ≥ ·) hist).take 3).length = 3 := by
      rw [List.length_take, hslen]
      omega
    have hne : ((List.insertionSort (· ≥ ·) hist).take 3).isEmpty = false := by
      cases h : (List.insertionSort (· ≥ ·) hist).take 3 with
      | nil => rw [h] at htake; simp at htake
      | cons a l => rfl
    simp only [calculateBaselineEAR, baselineSpecMean, hne, Bool.false_eq_true,
      if_false, htake]
    norm_num

/-- C1 witness: the amended theorem instantiated at the empty history and
at a concrete 3-sample history. -/
theorem calculateBaselineEAR_top3_witness :
    calculateBaselineEAR ([] : List ℚ) = 0 ∧
    calculateBaselineEAR [1, 2, 3] = baselineSpecMean [1, 2, 3] :=
  ⟨(calculateBaselineEAR_top3 []).2.2.2.1 rfl,
   (calculateBaselineEAR_top3 [1, 2, 3]).2.2.2.2 (by decide)⟩

/-- C4: the liveness score is
`min(blinkCount * 0.3 + movement * 2 + expressionChange * 0.3, 1)` with
`expressionChange = max(happy, surprised, neutral)`; it is monotonically
non-decreasing in each of the blink count, the movement and the
expression change, and it is capped at exactly 1 however large the
weighted sum grows. -/
theorem livenessScore_monotone_capped (b₁ b₂ : ℕ) (m₁ m₂ e₁ e₂ : ℚ) :
    livenessScore b₁ m₁ e₁ =
      min ((b₁ : ℚ) * (3 / 10) + m₁ * 2 + e₁ * (3 / 10)) 1 ∧
    expressionChange m₁ m₂ e₁ = max m₁ (max m₂ e₁) ∧
    (b₁ ≤ b₂ → livenessScore b₁ m₁ e₁ ≤ livenessScore b₂ m₁ e₁) ∧
    (m₁ ≤ m₂ → livenessScore b₁ m₁ e₁ ≤ livenessScore b₁ m₂ e₁) ∧
    (e₁ ≤ e₂ → livenessScore b₁ m₁ e₁ ≤ livenessScore b₁ m₁ e₂) ∧
    livenessScore b₁ m₁ e₁ ≤ 1 ∧
    (1 ≤ (b₁ : ℚ) * (3 / 10) + m₁ * 2 + e₁ * (3 / 10) →
      livenessScore b₁ m₁ e₁ = 1) := by
  unfold livenessScore expressionChange
  refine ⟨rfl, rfl, ?_, ?_, ?_, min_le_right _ _, ?_⟩
  · intro hb
    have : (b₁ : ℚ) ≤ (b₂ : ℚ) := by exact_mod_cast hb
    exact min_le_min (by nlinarith) le_rfl
  · intro hm
    exact min_le_min (by nlinarith) le_rfl
  · intro he
    exact min_le_min (by nlinarith) le_rfl
  · intro hsum
    exact min_eq_right hsum

/-- C4 witness: the score theorem instantiated at concrete inputs
exercising each monotonicity hypothesis and the cap. -/
theorem livenessScore_monotone_capped_witness :
    livenessScore 1 0 0 ≤ livenessScore 2 0 0 ∧
    livenessScore 1 0 0 ≤ livenessScore 1 1 0 ∧
    livenessScore 1 0 0 ≤ livenessScore 1 0 1 ∧
    livenessScore 5 0 0 = 1 :=
  ⟨(livenessScore_monotone_capped 1 2 0 0 0 0).2.2.1 (by norm_num),
   (livenessScore_monotone_capped 1 1 0 1 0 0).2.2.2.1 (by norm_num),
   (livenessScore_monotone_capped 1 1 0 0 0 1).2.2.2.2.1 (by norm_num),
   (livenessScore_monotone_capped 5 5 0 0 0 0).2.2.2.2.2.2 (by norm_num)⟩

/-- C5: guidance message selection follows the fixed priority of the
nested conditionals — need-more-blinks (with the blink count reported),
then need-more-movement, then verified-live, else position-face — and on
`blinkCount = 2`, `movement = 0.15`, `expressionChange = 0.5` the score
is exactly 1 and the verified-live message is selected. -/
theorem selectMessage_priority (score : ℚ) (b : ℕ) (mov : ℚ) :
    (7 / 10 < score → b < 2 → selectMessage score b mov = Msg.needBlinks b) ∧
    (7 / 10 < score → ¬ b < 2 → mov < 1 / 10 →
      selectMessage score b mov = Msg.needMovement) ∧
    (7 / 10 < score → ¬ b < 2 → ¬ mov < 1 / 10 →
      selectMessage score b mov = Msg.verified) ∧
    (¬ 7 / 10 < score → selectMessage score b mov = Msg.positionFace) ∧
    (livenessScore 2 (15 / 100) (1 / 2) = 1 ∧
      selectMessage (livenessScore 2 (15 / 100) (1 / 2)) 2 (15 / 100) =
        Msg.verified) := by
  have hsc : livenessScore 2 (15 / 100) (1 / 2) = 1 := by
    norm_num [livenessScore, min_def]
  refine ⟨?_, ?_, ?_, ?_, hsc, ?_⟩
  · intro hs hb; simp [selectMessage, hs, hb]
  · intro hs hb hm
    simp [selectMessage, hs, hb]
    linarith
  · intro hs hb hm
    push_neg at hm
    simp [selectMessage, hs, hb]
    linarith
  · intro hs; simp [selectMessage, hs]
  · rw [hsc]
    simp only [selectMessage]
    norm_num

/-- C5 witness: the priority theorem instantiated on one concrete input
per branch. -/
theorem selectMessage_priority_witness :
    selectMessage 1 0 0 = Msg.needBlinks 0 ∧
    selectMessage 1 2 0 = Msg.needMovement ∧
    selectMessage 1 2 1 = Msg.verified ∧
    selectMessage 0 0 0 = Msg.positionFace :=
  ⟨(selectMessage_priority 1 0 0).1 (by norm_num) (by norm_num),
   (selectMessage_priority 1 2 0).2.1 (by norm_num) (by norm_num) (by norm_num),
   (selectMessage_priority 1 2 1).2.2.1 (by norm_num) (by norm_num) (by norm_num),
   (selectMessage_priority 0 0 0).2.2.2.1 (by norm_num)⟩

/-- C9: a frame in which no face is detected leaves the EAR history, the
position history, the blink count and the score of the session unchanged
and only publishes the no-face message, in both versions of the
component. -/
theorem processFrame_noFace (s : Session) :
    (processFrameTsxOpt s none).earHist = s.earHist ∧
    (processFrameTsxOpt s none).posHist = s.posHist ∧
    (processFrameTsxOpt s none).blinkCount = s.blinkCount ∧
    (processFrameTsxOpt s none).score = s.score ∧
    (processFrameTsxOpt s none).message = Msg.noFace ∧
    (processFrameP0Opt s none).earHist = s.earHist ∧
    (processFrameP0Opt s none).posHist = s.posHist ∧
    (processFrameP0Opt s none).blinkCount = s.blinkCount ∧
    (processFrameP0Opt s none).score = s.score ∧
    (processFrameP0Opt s none).message = Msg.noFace := by
  refine ⟨rfl, rfl, rfl, rfl, rfl, rfl, rfl, rfl, rfl, rfl⟩

/-- C3: one `observe` call (the Tsx push followed by its blink check)
never decreases the blink count; it increments by exactly 1 when the
shared post-push history holds at least 3 samples and its second-to-last
sample lies strictly above `baseline() * 0.65` while the current EAR lies
strictly below it, and leaves the count unchanged in every other case —
in particular across consecutive closed-eye frames, whose previous sample
is not above the threshold. -/
theorem observe_spec (hist : List ℚ) (count : ℕ) (e : ℚ) :
    count ≤ (observe hist count e).2 ∧
    (3 ≤ (updateEARHistory hist e).length →
      calculateBaselineEAR (updateEARHistory hist e) * (65 / 100) <
        (updateEARHistory hist e).getD ((updateEARHistory hist e).length - 2) 0 →
      e < calculateBaselineEAR (updateEARHistory hist e) * (65 / 100) →
      (observe hist count e).2 = count + 1) ∧
    (¬ (3 ≤ (updateEARHistory hist e).length ∧
        calculateBaselineEAR (updateEARHistory hist e) * (65 / 100) <
          (updateEARHistory hist e).getD ((updateEARHistory hist e).length - 2) 0 ∧
        e < calculateBaselineEAR (updateEARHistory hist e) * (65 / 100)) →
      (observe hist count e).2 = count) := by
  have key : (observe hist count e).2 =
      if 3 ≤ (updateEARHistory hist e).length then
        if calculateBaselineEAR (updateEARHistory hist e) * (65 / 100) <
            (updateEARHistory hist e).getD ((updateEARHistory hist e).length - 2) 0 ∧
            e < calculateBaselineEAR (updateEARHistory hist e) * (65 / 100)
        then count + 1 else count
      else count := rfl
  refine ⟨?_, ?_, ?_⟩
  · rw [key]
    split_ifs <;> omega
  · intro h1 h2 h3
    rw [key, if_pos h1, if_pos ⟨h2, h3⟩]
  · intro hnot
    rw [key]
    split_ifs with h1 h2
    · exact absurd ⟨h1, h2⟩ hnot
    · rfl
    · rfl

/-- C3 witness: on the history `[3, 3]` with current EAR `0`, the
post-push history is `[3, 3, 0]`, the baseline is `2`, the threshold is
`1.3`, the second-to-last sample `3` is above it and `0` is below it, so
the count rises from 0 to 1. -/
theorem observe_spec_witness : (observe [3, 3] 0 0).2 = 1 :=
  (observe_spec [3, 3] 0 0).2.1
    (by norm_num [updateEARHistory])
    (by norm_num [updateEARHistory, calculateBaselineEAR, List.insertionSort,
      List.orderedInsert])
    (by norm_num [updateEARHistory, calculateBaselineEAR, List.insertionSort,
      List.orderedInsert])

/-- `totalMovement` of a list whose entries all coincide is 0. -/
theorem totalMovement_const :
    ∀ (l : List (ℚ × ℚ)) (p : ℚ × ℚ), (∀ q ∈ l, q = p) → totalMovement l = 0
  | [], _, _ => rfl
  | [_], _, _ => rfl
  | x :: y :: rest, p, h => by
    have hx : x = p := h x (by simp)
    have hy : y = p := h y (by simp)
    have ih : totalMovement (y :: rest) = 0 :=
      totalMovement_const (y :: rest) p fun q hq => h q (List.mem_cons_of_mem _ hq)
    subst hx
    subst hy
    simp [totalMovement, ih]

/-- Pushing `p` onto a history whose entries all equal `p` yields a
history whose entries all equal `p`. -/
theorem pushPosition_const (hist : List (ℚ × ℚ)) (p : ℚ × ℚ)
    (h : ∀ q ∈ hist, q = p) : ∀ q ∈ pushPosition hist p, q = p := by
  intro q hq
  have hmem : q ∈ hist ++ [p] := by
    simp only [pushPosition] at hq
    split at hq
    · exact List.mem_of_mem_tail hq
    · exact hq
  rcases List.mem_append.mp hmem with hl | hr
  · exact h q hl
  · simpa using hr

/-- C8: `detectMovement` returns 0 when fewer than 2 positions are
recorded after the push, and otherwise the sum over consecutive position
pairs of `|Δx| + |Δy|` divided by the current history length; a
stationary reference point (a history of copies of the pushed point)
always yields 0. -/
theorem detectMovement_spec (hist : List (ℚ × ℚ)) (p : ℚ × ℚ) :
    ((pushPosition hist p).length < 2 → (detectMovement hist p).2 = 0) ∧
    (2 ≤ (pushPosition hist p).length →
      (detectMovement hist p).2 =
        totalMovement (pushPosition hist p) / (pushPosition hist p).length) ∧
    ((∀ q ∈ hist, q = p) → (detectMovement hist p).2 = 0) := by
  have key : (detectMovement hist p).2 =
      if (pushPosition hist p).length < 2 then 0
      else totalMovement (pushPosition hist p) / (pushPosition hist p).length := rfl
  refine ⟨?_, ?_, ?_⟩
  · intro hlt
    rw [key, if_pos hlt]
  · intro hge
    rw [key, if_neg (Nat.not_lt.mpr hge)]
  · intro hconst
    have hzero : totalMovement (pushPosition hist p) = 0 :=
      totalMovement_const _ p (pushPosition_const hist p hconst)
    rw [key]
    split_ifs with h
    · rfl
    · simp [hzero]

/-- C8 witness: the movement theorem instantiated on the empty history
(fewer than 2 positions after the push), on a concrete moving pair, and
on a stationary point. -/
theorem detectMovement_spec_witness :
    (detectMovement [] ((5 : ℚ), (5 : ℚ))).2 = 0 ∧
    (detectMovement [((0 : ℚ), (0 : ℚ))] ((1 : ℚ), (2 : ℚ))).2 =
      totalMovement (pushPosition [((0 : ℚ), (0 : ℚ))] ((1 : ℚ), (2 : ℚ))) /
        (pushPosition [((0 : ℚ), (0 : ℚ))] ((1 : ℚ), (2 : ℚ))).length ∧
    (detectMovement [((4 : ℚ), (4 : ℚ))] ((4 : ℚ), (4 : ℚ))).2 = 0 :=
  ⟨(detectMovement_spec [] ((5 : ℚ), (5 : ℚ))).1 (by norm_num [pushPosition]),
   (detectMovement_spec [((0 : ℚ), (0 : ℚ))] ((1 : ℚ), (2 : ℚ))).2.1
     (by norm_num [pushPosition]),
   (detectMovement_spec [((4 : ℚ), (4 : ℚ))] ((4 : ℚ), (4 : ℚ))).2.2
     (by intro q hq; simpa using hq)⟩

/-- C6: when the two horizontal eye corners coincide (`eye[0]` and
`eye[3]` have the same coordinates), the horizontal distance is 0, the
guard `h > 0` fails and `getEyeAspectRatio` returns exactly 0 through the
else branch, without ever dividing. -/
theorem getEyeAspectRatio_degenerate (eye : EyeLandmarks)
    (hx : eye.p0.x = eye.p3.x) (hy : eye.p0.y = eye.p3.y) :
    getEyeAspectRatio eye = 0 := by
  have hh : euclideanDistance eye.p0 eye.p3 = 0 := by
    simp [euclideanDistance, hx, hy]
  rw [getEyeAspectRatio]
  simp [hh]

/-- A fully degenerate eye: all six landmarks at the origin. -/
def degenerateEye : EyeLandmarks :=
  ⟨⟨0, 0⟩, ⟨0, 0⟩, ⟨0, 0⟩, ⟨0, 0⟩, ⟨0, 0⟩, ⟨0, 0⟩⟩

/-- C6 witness: the degenerate-input theorem applied to an eye whose
landmarks all coincide. -/
theorem getEyeAspectRatio_degenerate_witness :
    getEyeAspectRatio degenerateEye = 0 :=
  getEyeAspectRatio_degenerate degenerateEye rfl rfl

/-- Scaling both endpoints by a nonnegative factor scales the Euclidean
distance by that factor. -/
theorem euclideanDistance_scale (k : ℝ) (hk : 0 ≤ k) (p q : Point) :
    euclideanDistance (scalePoint k p) (scalePoint k q) =
      k * euclideanDistance p q := by
  unfold euclideanDistance scalePoint
  have harg : (k * q.x - k * p.x) ^ 2 + (k * q.y - k * p.y) ^ 2 =
      k ^ 2 * ((q.x - p.x) ^ 2 + (q.y - p.y) ^ 2) := by ring
  rw [harg, Real.sqrt_mul (sq_nonneg k), Real.sqrt_sq hk]

/-- C7: for an eye whose horizontal distance is positive and any positive
factor `k`, multiplying all landmark coordinates by `k` leaves
`getEyeAspectRatio` unchanged: `v1`, `v2` and `h` all scale by `k` and
the ratio cancels. -/
theorem getEyeAspectRatio_scale_invariant (eye : EyeLandmarks) (k : ℝ)
    (hk : 0 < k) (hh : 0 < euclideanDistance eye.p0 eye.p3) :
    getEyeAspectRatio (scaleEye k eye) = getEyeAspectRatio eye := by
  rw [getEyeAspectRatio, getEyeAspectRatio]
  show (if 0 < euclideanDistance (scalePoint k eye.p0) (scalePoint k eye.p3) then
      ((euclideanDistance (scalePoint k eye.p1) (scalePoint k eye.p5) +
        euclideanDistance (scalePoint k eye.p2) (scalePoint k eye.p4)) /
        (2 * euclideanDistance (scalePoint k eye.p0) (scalePoint k eye.p3))) * (3 / 2)
    else 0) =
    if 0 < euclideanDistance eye.p0 eye.p3 then
      ((euclideanDistance eye.p1 eye.p5 + euclideanDistance eye.p2 eye.p4) /
        (2 * euclideanDistance eye.p0 eye.p3)) * (3 / 2)
    else 0
  rw [euclideanDistance_scale k hk.le, euclideanDistance_scale k hk.le,
    euclideanDistance_scale k hk.le, if_pos (mul_pos hk hh), if_pos hh]
  have hkne : k ≠ 0 := ne_of_gt hk
  have hhne : euclideanDistance eye.p0 eye.p3 ≠ 0 := ne_of_gt hh
  field_simp
  ring

/-- A concrete non-degenerate eye for the scaling witness. -/
def sampleEye : EyeLandmarks :=
  ⟨⟨0, 0⟩, ⟨1, 1⟩, ⟨2, 1⟩, ⟨3, 0⟩, ⟨2, -1⟩, ⟨1, -1⟩⟩

/-- C7 witness: the scale-invariance theorem applied to a concrete eye
with positive horizontal distance and the factor 2. -/
theorem getEyeAspectRatio_scale_invariant_witness :
    getEyeAspectRatio (scaleEye 2 sampleEye) = getEyeAspectRatio sampleEye :=
  getEyeAspectRatio_scale_invariant sampleEye 2 (by norm_num)
    (by
      unfold euclideanDistance sampleEye
      rw [Real.sqrt_pos]
      norm_num)

/-- C2: the P0 frame loop pushes the current EAR (part_000 279-282) and
its `detectBlink` pushes the same value again (part_000 80-83), so a
single face-detected frame appends TWO samples to the shared EAR history,
where the Tsx version appends exactly one: from the initial empty session
a frame with EAR 1 leaves the Tsx history at `[1]` but the P0 history at
`[1, 1]`. -/
theorem earHistory_push_divergence :
    (processFrameTsx initSession ⟨1, (0, 0), 0, 0, 0⟩).earHist = [1] ∧
    (processFrameP0 initSession ⟨1, (0, 0), 0, 0, 0⟩).earHist = [1, 1] :=
  ⟨rfl, rfl⟩

/-- The EAR push always leaves the new sample as the last element. -/
theorem updateEARHistory_concat (hist : List ℚ) (e : ℚ) :
    ∃ t : List ℚ, updateEARHistory hist e = t ++ [e] := by
  show ∃ t, (if 10 < (hist ++ [e]).length then (hist ++ [e]).tail
      else hist ++ [e]) = t ++ [e]
  split_ifs with h
  · cases hist with
    | nil => simp at h
    | cons x xs => exact ⟨xs, by simp⟩
  · exact ⟨hist, rfl⟩

/-- Pushing onto a history ending in `a` leaves `a` as the second-to-last
element. -/
theorem updateEARHistory_concat2 (l : List ℚ) (a e : ℚ) :
    ∃ t : List ℚ, updateEARHistory (l ++ [a]) e = t ++ [a, e] := by
  show ∃ t, (if 10 < ((l ++ [a]) ++ [e]).length then ((l ++ [a]) ++ [e]).tail
      else (l ++ [a]) ++ [e]) = t ++ [a, e]
  split_ifs with h
  · cases l with
    | nil => simp at h
    | cons x xs => exact ⟨xs, by simp⟩
  · exact ⟨l, by simp⟩

/-- Reading index `length - 2` of a list ending in `[a, b]` yields `a`. -/
theorem getD_append_two (l : List ℚ) (a b : ℚ) :
    (l ++ [a, b]).getD ((l ++ [a, b]).length - 2) 0 = a := by
  induction l with
  | nil => rfl
  | cons x xs ih =>
      rw [List.cons_append]
      have h1 : (x :: (xs ++ [a, b])).length - 2 =
          ((xs ++ [a, b]).length - 2) + 1 := by
        simp
      rw [h1, List.getD_cons_succ]
      exact ih

/-- Unfolding equation for the second component of `detectBlinkP0`. -/
theorem detectBlinkP0_snd (h0 : List ℚ) (count : ℕ) (e : ℚ) :
    (detectBlinkP0 h0 count e).2 =
      if 3 ≤ (updateEARHistory h0 e).length then
        if calculateBaselineEAR (updateEARHistory h0 e) * (65 / 100) <
            (updateEARHistory h0 e).getD ((updateEARHistory h0 e).length - 2) 0 ∧
            e < calculateBaselineEAR (updateEARHistory h0 e) * (65 / 100)
        then count + 1 else count
      else count := rfl

/-- When `detectBlinkP0` runs on a history into which the frame loop has
already pushed the same EAR value, the second-to-last sample after its
own push equals the current EAR, so the falling-edge condition can never
hold and the count is unchanged. -/
theorem detectBlinkP0_after_push (hist : List ℚ) (count : ℕ) (e : ℚ) :
    (detectBlinkP0 (updateEARHistory hist e) count e).2 = count := by
  obtain ⟨t, ht⟩ := updateEARHistory_concat hist e
  obtain ⟨t2, ht2⟩ := updateEARHistory_concat2 t e e
  rw [detectBlinkP0_snd, ht, ht2, getD_append_two]
  split_ifs with h1 h2
  · exact absurd (lt_trans h2.1 h2.2) (lt_irrefl _)
  · rfl
  · rfl

/-- A P0 frame never changes the blink count. -/
theorem processFrameP0_blinkCount (s : Session) (m : Measurement) :
    (processFrameP0 s m).blinkCount = s.blinkCount := by
  have key : (processFrameP0 s m).blinkCount =
      (detectBlinkP0 (updateEARHistory s.earHist m.ear) s.blinkCount m.ear).2 := rfl
  rw [key, detectBlinkP0_after_push]

/-- Folding any frame sequence through the P0 pipeline preserves the
blink count. -/
theorem foldl_processFrameP0_blinkCount (frames : List (Option Measurement)) :
    ∀ s : Session, (frames.foldl processFrameP0Opt s).blinkCount = s.blinkCount := by
  induction frames with
  | nil => intro s; rfl
  | cons f fs ih =>
      intro s
      rw [List.foldl_cons, ih]
      cases f with
      | none => rfl
      | some m => exact processFrameP0_blinkCount s m

/-- C10: in the P0 version of the pipeline the blink count is 0 on every
frame forever — the frame loop pushes the current EAR and `detectBlink`
pushes the same value again before checking, so the second-to-last sample
always equals the current EAR and the falling-edge condition never
holds. -/
theorem blinkCount_always_zero_P0 (frames : List (Option Measurement)) :
    (frames.foldl processFrameP0Opt initSession).blinkCount = 0 :=
  foldl_processFrameP0_blinkCount frames initSession

end BankSec
